import Mathlib

/-!
# Verification of the reminders21 scheduling and recurrence core

Shallow embedding of the reminder storage layer (`storage/database.go`,
recurring-reminder storage), the scheduler sweeps (`processDueReminders`,
`processRecurringReminders`), the calendar projection
(`getApplicableRecurringReminders`), the list-view sorting
(`sortLinesByDateTimeWithTodos`) and the operation reconciler
(`processAdjustOperation` / `processAdjustRecurringOperation`).

Conventions of the embedding:
* Instants are minutes since the Unix epoch, as `Int`; the due checks in the
  source work at minute granularity (`now.Format("15:04")`), so seconds are
  dropped.
* A Go `time.Time` (an instant together with a location) is embedded as a
  `LocalInstant`: the absolute instant plus its local wall-clock decomposition
  (year, month, day, hour, minute, weekday), exactly the fields the source
  reads off `now` (`Format("15:04")`, `Weekday()`, `Day()`, `time.Date(...)`).
* SQL `NULL` in `day_of_week` / `day_of_month` round-trips through
  `IFNULL(..., -1)` in every query of the source, so those columns are
  embedded as `Int` with `-1` for NULL, matching both the write path
  (`sql.NullInt64{Valid: dayOfWeek >= 0}`, `Valid: dayOfMonth > 0`) and the
  read path.
* `last_triggered` is `Option Int` (`NULL` ⇔ `none`).
* A table is a `List` of rows; an SQL `UPDATE ... WHERE P` is a `map` that
  rewrites the rows satisfying `P`, and `RowsAffected > 0` is `List.any`.
* `ORDER BY` is realised with `List.insertionSort`; the source's `sort.Slice`
  is an unstable sort, so any permutation that is nondecreasing in the sort
  key is a faithful embedding.
-/

namespace Reminders21

/-- One-shot reminder row (`storage.ReminderItem`). `reminderTime` is minutes
since epoch. -/
structure ReminderItem where
  id : Int
  chatId : Int
  userId : Int
  reminderTime : Int
  label : String
  notified : Bool
  isTodo : Bool
deriving DecidableEq

/-- `storage.RecurringType`. (The column is TEXT, but every write path of the
source stores one of exactly these three constants.) -/
inductive RecurringType where
  | daily
  | weekly
  | monthly
deriving DecidableEq

/-- Recurring reminder definition row (`storage.RecurringReminder`).
`time` is the stored "HH:MM" string; `dayOfWeek` / `dayOfMonth` use `-1` for
SQL NULL; `lastTriggered` is `none` for NULL. -/
structure RecurringReminder where
  id : Int
  chatId : Int
  userId : Int
  label : String
  createdAt : Int
  recurringType : RecurringType
  time : String
  dayOfWeek : Int
  dayOfMonth : Int
  lastTriggered : Option Int
  active : Bool
  isTodo : Bool
deriving DecidableEq

/-- A Go `time.Time` viewed in some location: the absolute instant
(`absMinutes`, location-independent) together with its local wall-clock
decomposition in that location. -/
structure LocalInstant where
  year : Int
  month : Nat
  day : Nat
  hour : Nat
  minute : Nat
  weekday : Nat
  absMinutes : Int
deriving DecidableEq

/-- 29 February rule, as in the proleptic Gregorian calendar used by Go's
`time` package. -/
def isLeapYear (y : Int) : Prop :=
  y % 4 = 0 ∧ (y % 100 ≠ 0 ∨ y % 400 = 0)

instance (y : Int) : Decidable (isLeapYear y) := by
  unfold isLeapYear; infer_instance

/-- Number of days of a month in the Gregorian calendar. -/
def daysInMonth (y : Int) (m : Nat) : Nat :=
  if m = 2 then (if isLeapYear y then 29 else 28)
  else if m = 4 ∨ m = 6 ∨ m = 9 ∨ m = 11 then 30
  else 31

/-- The wall-clock fields of a `LocalInstant` describe a real calendar
date-time, as any Go `time.Time` (always normalized) does. -/
def LocalInstant.Valid (n : LocalInstant) : Prop :=
  n.minute < 60 ∧ n.hour < 24 ∧ n.weekday < 7 ∧
  1 ≤ n.month ∧ n.month ≤ 12 ∧ 1 ≤ n.day ∧ n.day ≤ daysInMonth n.year n.month

instance (n : LocalInstant) : Decidable n.Valid := by
  unfold LocalInstant.Valid; infer_instance

/-- `time.Date(now.Year(), now.Month(), now.Day(), 0, 0, 0, 0, now.Location())`
as an absolute instant: midnight of the local day of `n`. -/
def LocalInstant.startOfToday (n : LocalInstant) : Int :=
  n.absMinutes - (n.hour * 60 + n.minute)

/-- Two-digit decimal rendering, as in Go's reference layout components. -/
def pad2 (n : Nat) : String :=
  if n < 10 then "0" ++ toString n else toString n

/-- `now.Format("15:04")`. -/
def formatHHMM (hour minute : Nat) : String :=
  pad2 hour ++ ":" ++ pad2 minute

/-- The `(recurring_type = 'daily') OR (recurring_type = 'weekly' AND
day_of_week = ?) OR (recurring_type = 'monthly' AND day_of_month = ?)`
disjunction of the due query, against `now.Weekday()` / `now.Day()`. -/
def patternMatchesNow (now : LocalInstant) (r : RecurringReminder) : Bool :=
  match r.recurringType with
  | .daily => true
  | .weekly => r.dayOfWeek == (now.weekday : Int)
  | .monthly => r.dayOfMonth == (now.day : Int)

/-- The WHERE clause of `GetDueRecurringReminders` (src/cli/broadcast.go,
lines 512-593), evaluated for one row against the wall clock of `now`:
`active = 1 AND is_todo = 0 AND time = ? AND (daily OR (weekly AND
day_of_week = ?) OR (monthly AND day_of_month = ?)) AND (last_triggered IS
NULL OR last_triggered < startOfToday)`. -/
def dueRecurring (now : LocalInstant) (r : RecurringReminder) : Bool :=
  r.active && !r.isTodo && r.time == formatHHMM now.hour now.minute &&
  patternMatchesNow now r &&
  (match r.lastTriggered with
   | none => true
   | some t => decide (t < now.startOfToday))

/-- `ReminderRepository.GetDueRecurringReminders(now)`: all rows passing
`dueRecurring` (the query has no ORDER BY). -/
def GetDueRecurringReminders (rows : List RecurringReminder)
    (now : LocalInstant) : List RecurringReminder :=
  rows.filter (dueRecurring now)

/-- Sort key of `ORDER BY created_at DESC`. -/
def createdDescLe (a b : RecurringReminder) : Prop :=
  b.createdAt ≤ a.createdAt

instance : DecidableRel createdDescLe := fun a b =>
  inferInstanceAs (Decidable (b.createdAt ≤ a.createdAt))

instance : IsTotal RecurringReminder createdDescLe :=
  ⟨fun a b => Int.le_total b.createdAt a.createdAt⟩

instance : IsTrans RecurringReminder createdDescLe :=
  ⟨fun _ _ _ h1 h2 => le_trans h2 h1⟩

/-- `ReminderRepository.GetUserRecurringReminders(userID)`:
`WHERE user_id = ? AND active = 1 ORDER BY created_at DESC`. -/
def GetUserRecurringReminders (userID : Int)
    (rows : List RecurringReminder) : List RecurringReminder :=
  List.insertionSort createdDescLe
    (rows.filter (fun r => r.userId == userID && r.active))

/-- `ReminderRepository.UpdateRecurringReminder`: `UPDATE ... SET label,
recurring_type, time, day_of_week, day_of_month WHERE id = ? AND user_id = ?
AND active = 1`; returns `RowsAffected > 0` and the updated table. -/
def UpdateRecurringReminder (rows : List RecurringReminder)
    (id userID : Int) (label : String) (recurringType : RecurringType)
    (timeStr : String) (dayOfWeek dayOfMonth : Int) :
    Bool × List RecurringReminder :=
  let hit := fun (r : RecurringReminder) =>
    r.id == id && r.userId == userID && r.active
  (rows.any hit,
   rows.map (fun r =>
     if hit r then
       { r with label := label, recurringType := recurringType,
                time := timeStr,
                dayOfWeek := if dayOfWeek ≥ 0 then dayOfWeek else -1,
                dayOfMonth := if dayOfMonth > 0 then dayOfMonth else -1 }
     else r))

/-- `ReminderRepository.DeleteRecurringReminder`: soft delete,
`UPDATE recurring_reminders SET active = 0 WHERE id = ? AND user_id = ? AND
active = 1`. -/
def DeleteRecurringReminder (rows : List RecurringReminder)
    (id userID : Int) : Bool × List RecurringReminder :=
  let hit := fun (r : RecurringReminder) =>
    r.id == id && r.userId == userID && r.active
  (rows.any hit,
   rows.map (fun r => if hit r then { r with active := false } else r))

/-- `ReminderRepository.UpdateRecurringReminderLastTriggered`:
`UPDATE recurring_reminders SET last_triggered = ? WHERE id = ?`. -/
def UpdateRecurringReminderLastTriggered (rows : List RecurringReminder)
    (id : Int) (lastTriggered : Int) : List RecurringReminder :=
  rows.map (fun r =>
    if r.id == id then { r with lastTriggered := some lastTriggered } else r)

/-- Recurring-reminder table together with the AUTOINCREMENT counter. -/
structure RecStore where
  rows : List RecurringReminder
  nextId : Int
deriving DecidableEq

/-- `ReminderRepository.AddRecurringReminder`: INSERT with `active = 1`,
fresh surrogate id, NULL `last_triggered`; `createdAt` is the caller's
`time.Now()`. -/
def AddRecurringReminder (st : RecStore) (chatId userId : Int)
    (label : String) (recurringType : RecurringType) (timeStr : String)
    (dayOfWeek dayOfMonth : Int) (isTodo : Bool) (createdAt : Int) :
    Int × RecStore :=
  (st.nextId,
   { rows := st.rows ++
       [{ id := st.nextId, chatId := chatId, userId := userId,
          label := label, createdAt := createdAt,
          recurringType := recurringType, time := timeStr,
          dayOfWeek := if dayOfWeek ≥ 0 then dayOfWeek else -1,
          dayOfMonth := if dayOfMonth > 0 then dayOfMonth else -1,
          lastTriggered := none, active := true, isTodo := isTodo }],
     nextId := st.nextId + 1 })

/-- Sort key of `ORDER BY reminder_time` (ascending). -/
def fireAtLe (a b : ReminderItem) : Prop :=
  a.reminderTime ≤ b.reminderTime

instance : DecidableRel fireAtLe := fun a b =>
  inferInstanceAs (Decidable (a.reminderTime ≤ b.reminderTime))

instance : IsTotal ReminderItem fireAtLe :=
  ⟨fun a b => Int.le_total a.reminderTime b.reminderTime⟩

instance : IsTrans ReminderItem fireAtLe :=
  ⟨fun _ _ _ h1 h2 => le_trans h1 h2⟩

/-- `ReminderRepository.UpdateReminderTime`: `UPDATE reminders SET
reminder_time = ? WHERE id = ? AND user_id = ? AND notified = 0`. -/
def UpdateReminderTime (db : List ReminderItem) (id userID : Int)
    (reminderTime : Int) : Bool × List ReminderItem :=
  let hit := fun (r : ReminderItem) =>
    r.id == id && r.userId == userID && !r.notified
  (db.any hit,
   db.map (fun r =>
     if hit r then { r with reminderTime := reminderTime } else r))

/-- `ReminderRepository.UpdateReminderLabel`. -/
def UpdateReminderLabel (db : List ReminderItem) (id userID : Int)
    (label : String) : Bool × List ReminderItem :=
  let hit := fun (r : ReminderItem) =>
    r.id == id && r.userId == userID && !r.notified
  (db.any hit,
   db.map (fun r => if hit r then { r with label := label } else r))

/-- `ReminderRepository.UpdateReminder` (both time and label, single
UPDATE statement). -/
def UpdateReminder (db : List ReminderItem) (id userID : Int)
    (reminderTime : Int) (label : String) : Bool × List ReminderItem :=
  let hit := fun (r : ReminderItem) =>
    r.id == id && r.userId == userID && !r.notified
  (db.any hit,
   db.map (fun r =>
     if hit r then { r with reminderTime := reminderTime, label := label }
     else r))

/-- `ReminderRepository.DeleteReminder`: `DELETE FROM reminders WHERE id = ?
AND user_id = ? AND notified = 0` (hard delete). -/
def DeleteReminder (db : List ReminderItem) (id userID : Int) :
    Bool × List ReminderItem :=
  let hit := fun (r : ReminderItem) =>
    r.id == id && r.userId == userID && !r.notified
  (db.any hit, db.filter (fun r => !hit r))

/-- `ReminderRepository.GetUserReminders`: `WHERE user_id = ? AND
notified = 0 ORDER BY reminder_time`. -/
def GetUserReminders (userID : Int) (db : List ReminderItem) :
    List ReminderItem :=
  List.insertionSort fireAtLe
    (db.filter (fun r => r.userId == userID && !r.notified))

/-- `ReminderRepository.GetUserRemindersByPeriod` (src/storage/database.go,
lines 286-315): `WHERE user_id = ? AND notified = 0 AND reminder_time >= ?
AND reminder_time < ? ORDER BY reminder_time`. -/
def GetUserRemindersByPeriod (userID : Int) (start endEx : Int)
    (db : List ReminderItem) : List ReminderItem :=
  List.insertionSort fireAtLe
    (db.filter (fun r =>
      r.userId == userID && !r.notified &&
      decide (start ≤ r.reminderTime) && decide (r.reminderTime < endEx)))

/-- `ReminderRepository.GetDueReminders`: `WHERE reminder_time <= ? AND
notified = 0 AND is_todo = 0 ORDER BY reminder_time` (all users). -/
def GetDueReminders (before : Int) (db : List ReminderItem) :
    List ReminderItem :=
  List.insertionSort fireAtLe
    (db.filter (fun r =>
      decide (r.reminderTime ≤ before) && !r.notified && !r.isTodo))

/-- One `UPDATE reminders SET notified = 1 WHERE id = ?` (the statement
executed once per id inside the batch transaction). -/
def markNotifiedRow (id : Int) (db : List ReminderItem) : List ReminderItem :=
  db.map (fun r => if r.id == id then { r with notified := true } else r)

/-- The per-id execution loop of `MarkMultipleAsNotified` run against the
transaction's tentative state. `fails id = true` models `stmt.Exec(id)`
returning an error on that id, which aborts the loop. -/
def execMarkBatch (fails : Int → Bool) :
    List Int → List ReminderItem → Except Unit (List ReminderItem)
  | [], db => .ok db
  | id :: rest, db =>
      if fails id then .error () else execMarkBatch fails rest (markNotifiedRow id db)

/-- `ReminderRepository.MarkMultipleAsNotified` (src/storage/database.go,
lines 357-389): empty id list returns immediately; otherwise all updates run
inside one transaction — an error on any id (or a failing commit,
`commitOk = false`) rolls the whole transaction back, leaving the table as
it was; only a successful commit publishes the tentative state. Returns
`(succeeded, table)`. -/
def MarkMultipleAsNotified (fails : Int → Bool) (commitOk : Bool)
    (ids : List Int) (db : List ReminderItem) : Bool × List ReminderItem :=
  if ids.isEmpty then (true, db)
  else
    match execMarkBatch fails ids db with
    | .error _ => (false, db)
    | .ok db' => if commitOk then (true, db') else (false, db)

/-- `ReminderBot.processDueReminders` (src/unnamed/part_003, lines 142-172):
fetch due reminders, send each; on a send error `continue` skips the id, so
only successfully-sent ids are collected into `reminderIDs`; finally the
collected ids are batch-marked in one transaction. `sendOk id` models
`bot.Send` succeeding for the reminder with that id. -/
def processDueReminders (sendOk : Int → Bool) (markFails : Int → Bool)
    (commitOk : Bool) (now : Int) (db : List ReminderItem) :
    List ReminderItem :=
  let due := GetDueReminders now db
  let reminderIDs := (due.filter (fun r => sendOk r.id)).map (fun r => r.id)
  (MarkMultipleAsNotified markFails commitOk reminderIDs db).2

/-- The send-and-mark loop of `ReminderBot.processRecurringReminders`
(src/unnamed/part_005, lines 180-220) over the precomputed due list: for each
due row, attempt the send; on error `continue` (the watermark is NOT
updated); on success call `UpdateRecurringReminderLastTriggered(id, now)`.
Returns the final table and the ids of the successfully sent rows in order. -/
def fireDue (sendOk : Int → Bool) (nowAbs : Int) :
    List RecurringReminder → List RecurringReminder →
    List RecurringReminder × List Int
  | [], rows => (rows, [])
  | r :: rest, rows =>
      if sendOk r.id then
        let step := fireDue sendOk nowAbs rest
          (UpdateRecurringReminderLastTriggered rows r.id nowAbs)
        (step.1, r.id :: step.2)
      else fireDue sendOk nowAbs rest rows

/-- `ReminderBot.processRecurringReminders`: `now := time.Now()` (the
server's clock and location), fetch the due definitions once, then run the
send-and-mark loop. -/
def processRecurringReminders (sendOk : Int → Bool) (now : LocalInstant)
    (rows : List RecurringReminder) : List RecurringReminder × List Int :=
  fireDue sendOk now.absMinutes (GetDueRecurringReminders rows now) rows

/-- A sequence of recurring-checker ticks: each tick supplies the server's
`LocalInstant` and which sends succeed during that tick. Returns the final
table and the concatenated list of fired (successfully sent) ids. -/
def runTicks : List (LocalInstant × (Int → Bool)) →
    List RecurringReminder → List RecurringReminder × List Int
  | [], rows => (rows, [])
  | (now, sendOk) :: rest, rows =>
      let t := processRecurringReminders sendOk now rows
      let rec' := runTicks rest t.1
      (rec'.1, t.2 ++ rec'.2)

/-- A calendar day visited by the projection loop of
`getApplicableRecurringReminders` (the loop steps `currentDate` by 24h from
`start` while `currentDate.Before(end)`; each visited `time.Time` is read
through `Weekday()` and `Day()`). -/
structure DateView where
  year : Int
  month : Nat
  day : Nat
  weekday : Nat
deriving DecidableEq

/-- The visited date is a real calendar date (Go `time.Time` values are
always normalized). -/
def DateView.Valid (d : DateView) : Prop :=
  d.weekday < 7 ∧ 1 ≤ d.month ∧ d.month ≤ 12 ∧
  1 ≤ d.day ∧ d.day ≤ daysInMonth d.year d.month

instance (d : DateView) : Decidable d.Valid := by
  unfold DateView.Valid; infer_instance

/-- `bot.RecurringEvent`. -/
structure RecurringEvent where
  id : Int
  label : String
  time : String
  date : DateView
deriving DecidableEq

/-- The `switch reminder.RecurringType` pattern match of
`getApplicableRecurringReminders` (src/unnamed/part_006, lines 268-278). -/
def applicableOn (r : RecurringReminder) (d : DateView) : Bool :=
  match r.recurringType with
  | .daily => true
  | .weekly => r.dayOfWeek == (d.weekday : Int)
  | .monthly => r.dayOfMonth == (d.day : Int)

/-- `ReminderBot.getApplicableRecurringReminders` (src/unnamed/part_006,
lines 256-292): fetch the user's active definitions, then for each visited
day of the range emit an event for every definition whose pattern matches
that day. `days` is the list of days the 24h-stepping loop visits. -/
def getApplicableRecurringReminders (userID : Int)
    (rows : List RecurringReminder) (days : List DateView) :
    List RecurringEvent :=
  let recurringReminders := GetUserRecurringReminders userID rows
  days.flatMap (fun d =>
    (recurringReminders.filter (fun r => applicableOn r d)).map
      (fun r => { id := r.id, label := r.label, time := r.time, date := d }))

/-- Modelled from the spec: the spec (§3 UserPreferences, §4.3 step 2)
requires the due comparison to use the wall clock of `now` in the owning
user's configured timezone. A timezone is taken as its UTC offset in
minutes; this is the "HH:MM" wall-clock string of the absolute instant
`t` in that timezone. The repository's code never computes this (the
scheduler passes server-local `time.Now()`), so this definition follows the
spec's words, for comparison against the code's behaviour. -/
def userLocalHHMM (t offset : Int) : String :=
  let lm := (t + offset).emod 1440
  formatHHMM (lm / 60).toNat (lm.emod 60).toNat

/-! ## List-view sorting (`sortLinesByDateTimeWithTodos`)

The Go functions sort the already-formatted display lines. A multi-day line
is `"DD.MM.YYYY HH:MM – label"` for a timed reminder and `"DD.MM.YYYY ☐
label"` for a todo. Go indexes bytes and compares strings byte-wise; all
date/time prefixes are ASCII and UTF-8 byte order coincides with code-point
order, so `List Char` comparison is equivalent. -/

/-- Byte-wise `<=` on Go strings, as lexicographic order on code points. -/
def chListLe : List Char → List Char → Bool
  | [], _ => true
  | _ :: _, [] => false
  | a :: as, b :: bs => if a < b then true else if a = b then chListLe as bs else false

/-- `a <= b` for Go strings (`sort.Strings` ascending, `sort.Slice` with
`<`: any nondecreasing permutation). -/
def strLe (a b : String) : Bool :=
  chListLe a.data b.data

/-- `line[:10]`: the "DD.MM.YYYY" date part of a multi-day line. -/
def lineDate (l : String) : String :=
  (l.data.take 10).asString

/-- `line[11:]`: everything after the date part, i.e. `"HH:MM – label"` for
a timed line. -/
def lineRest (l : String) : String :=
  (l.data.drop 11).asString

/-- `strings.Contains(line, "☐")`, the todo test of
`sortLinesByDateTimeWithTodos`. -/
def isTodoLine (l : String) : Bool :=
  l.data.contains '☐'

/-- Order on whole lines used for the within-day reminder sort:
`reminders[i][11:] < reminders[j][11:]`. -/
def restLe (a b : String) : Prop :=
  strLe (lineRest a) (lineRest b) = true

instance : DecidableRel restLe := fun a b =>
  inferInstanceAs (Decidable (strLe (lineRest a) (lineRest b) = true))

/-- Plain string order for `sort.Strings(dates)`. -/
def strLeP (a b : String) : Prop :=
  strLe a b = true

instance : DecidableRel strLeP := fun a b =>
  inferInstanceAs (Decidable (strLe a b = true))

/-- `sortLinesByDateTimeWithTodos` (src/unnamed/part_006, lines 191-246):
group the lines by their `line[:10]` date string; inside each group put the
todo lines (those containing "☐") first, in encounter order, followed by the
remaining lines sorted by `line[11:]`; finally emit the groups in the order
of `sort.Strings` over the date strings — i.e. lexicographic order of the
"DD.MM.YYYY" strings, not calendar order. -/
def sortLinesByDateTimeWithTodos (lines : List String) : List String :=
  let dates := List.insertionSort strLeP (lines.map lineDate).dedup
  dates.flatMap (fun d =>
    let group := lines.filter (fun l => lineDate l == d)
    let todos := group.filter (fun l => isTodoLine l)
    let reminders := group.filter (fun l => !isTodoLine l)
    todos ++ List.insertionSort restLe reminders)

/-- Calendar key (year, month, day) of a "DD.MM.YYYY" date string, for
stating what ascending calendar order would be. -/
def calendarKey (s : String) : Int × Int × Int :=
  let ds := s.data
  let num := fun (cs : List Char) =>
    cs.foldl (fun acc c => acc * 10 + ((c.toNat : Int) - 48)) 0
  (num (ds.drop 6), num (ds.drop 3 |>.take 2), num (ds.take 2))

/-! ## Operation reconciler (`bot/operations.go`) -/

/-- `llm.Operation`: the validated operation record produced by the intent
layer; empty string means "field absent". -/
structure Operation where
  action : String
  datetime : String
  label : String
  reminderId : String
  answer : String
  startDate : String
  endDate : String
  recurringType : String
  time : String
  dayOfWeek : String
  dayOfMonth : String
deriving DecidableEq

/-- Both stores as seen by the bot's repository handle. -/
structure BotStore where
  reminders : List ReminderItem
  recurring : List RecurringReminder
deriving DecidableEq

/-- User-visible outcome of an adjust operation, one constructor per reply
branch of `processAdjustOperation` / `processAdjustRecurringOperation`. -/
inductive AdjustOutcome where
  | badRecurringId
  | badReminderId
  | badDateFormat
  | nothingToChange
  | oneShotNotFound
  | oneShotUpdated
  | recurringNotFound
  | recurringUpdateFailed
  | recurringUpdated
deriving DecidableEq

/-- Value of a decimal digit. -/
def digitVal (c : Char) : Option Nat :=
  if '0' ≤ c ∧ c ≤ '9' then some (c.toNat - 48) else none

/-- A nonempty all-digit run, as a number. -/
def parseDigits : List Char → Option Nat
  | [] => none
  | cs =>
      cs.foldl
        (fun acc c =>
          match acc, digitVal c with
          | some a, some d => some (a * 10 + d)
          | _, _ => none)
        (some 0)

/-- `strconv.ParseInt(s, 10, 64)`: optional sign then at least one digit.
(Int64 overflow is not modelled; the ids in play are small.) -/
def parseInt (s : String) : Option Int :=
  match s.data with
  | [] => none
  | '+' :: rest => (parseDigits rest).map (fun n => (n : Int))
  | '-' :: rest => (parseDigits rest).map (fun n => -(n : Int))
  | cs => (parseDigits cs).map (fun n => (n : Int))

/-- `parseDayOfWeek` (src/bot/operations.go, lines 144-185): English and
Russian day names, full or abbreviated, case-normalized; unknown → -1.
(Lean's `String.toLower` lowers ASCII only, Go's also lowers Cyrillic; the
day-name tables below are already lowercase, so the two differ only on
uppercase Cyrillic input, which no claim exercises.) -/
def parseDayOfWeek (day : String) : Int :=
  let d := day.trim.toLower
  if d = "sunday" ∨ d = "sun" then 0
  else if d = "monday" ∨ d = "mon" then 1
  else if d = "tuesday" ∨ d = "tue" then 2
  else if d = "wednesday" ∨ d = "wed" then 3
  else if d = "thursday" ∨ d = "thu" then 4
  else if d = "friday" ∨ d = "fri" then 5
  else if d = "saturday" ∨ d = "sat" then 6
  else if d = "воскресенье" ∨ d = "вс" then 0
  else if d = "понедельник" ∨ d = "пн" then 1
  else if d = "вторник" ∨ d = "вт" then 2
  else if d = "среда" ∨ d = "ср" then 3
  else if d = "четверг" ∨ d = "чт" then 4
  else if d = "пятница" ∨ d = "пт" then 5
  else if d = "суббота" ∨ d = "сб" then 6
  else -1

/-- Days since 1970-01-01 of a civil date (proleptic Gregorian; the standard
era-based conversion, matching Go's internal calendar). -/
def daysFromCivil (y : Int) (m d : Nat) : Int :=
  let yAdj : Int := if m ≤ 2 then y - 1 else y
  let era : Int := (if 0 ≤ yAdj then yAdj else yAdj - 399) / 400
  let yoe : Int := yAdj - era * 400
  let mp : Int := if 2 < m then (m : Int) - 3 else (m : Int) + 9
  let doy : Int := (153 * mp + 2) / 5 + (d : Int) - 1
  let doe : Int := yoe * 365 + yoe / 4 - yoe / 100 + doy
  era * 146097 + doe - 719468

/-- `time.Parse("2006-01-02 15:04:05", s)`, at the minute granularity of the
embedding: strict layout, range-checked fields; result is minutes since
epoch (seconds are parsed but dropped, as everywhere in the embedding). -/
def parseDateTime (s : String) : Option Int :=
  let cs := s.data
  if cs.length = 19 ∧ cs.get? 4 = some '-' ∧ cs.get? 7 = some '-' ∧
     cs.get? 10 = some ' ' ∧ cs.get? 13 = some ':' ∧ cs.get? 16 = some ':' then
    match parseDigits (cs.take 4), parseDigits ((cs.drop 5).take 2),
          parseDigits ((cs.drop 8).take 2), parseDigits ((cs.drop 11).take 2),
          parseDigits ((cs.drop 14).take 2), parseDigits ((cs.drop 17).take 2) with
    | some y, some mo, some d, some h, some mi, some sec =>
        if 1 ≤ mo ∧ mo ≤ 12 ∧ 1 ≤ d ∧ d ≤ daysInMonth (y : Int) mo ∧
           h < 24 ∧ mi < 60 ∧ sec < 60 then
          some (daysFromCivil (y : Int) mo d * 1440 + (h : Int) * 60 + (mi : Int))
        else none
    | _, _, _, _, _, _ => none
  else none

/-- `ReminderBot.processAdjustRecurringOperation` (src/bot/operations.go,
lines 269-375): look the definition up among the caller's active
definitions; merge each provided field over the stored values (absent
fields retain prior values); then run `UpdateRecurringReminder` with the
merged values — note that no "is anything provided at all" check exists on
this path. -/
def processAdjustRecurringOperation (reminderID : Int) (op : Operation)
    (userID : Int) (st : BotStore) : AdjustOutcome × BotStore :=
  match (GetUserRecurringReminders userID st.recurring).find?
      (fun r => r.id == reminderID) with
  | none => (.recurringNotFound, st)
  | some found =>
      let timeStr := if op.time ≠ "" then op.time else found.time
      let label := if op.label ≠ "" then op.label else found.label
      let recurringType :=
        if op.recurringType ≠ "" then
          if op.recurringType = "daily" then RecurringType.daily
          else if op.recurringType = "weekly" then RecurringType.weekly
          else if op.recurringType = "monthly" then RecurringType.monthly
          else found.recurringType
        else found.recurringType
      let dayOfWeek :=
        if op.dayOfWeek ≠ "" ∧ recurringType = RecurringType.weekly then
          match parseInt op.dayOfWeek with
          | some n =>
              if 0 ≤ n ∧ n ≤ 6 then n
              else if parseDayOfWeek op.dayOfWeek ≥ 0 then parseDayOfWeek op.dayOfWeek
              else found.dayOfWeek
          | none =>
              if parseDayOfWeek op.dayOfWeek ≥ 0 then parseDayOfWeek op.dayOfWeek
              else found.dayOfWeek
        else found.dayOfWeek
      let dayOfMonth :=
        if op.dayOfMonth ≠ "" ∧ recurringType = RecurringType.monthly then
          match parseInt op.dayOfMonth with
          | some n => if 1 ≤ n ∧ n ≤ 31 then n else found.dayOfMonth
          | none => found.dayOfMonth
        else found.dayOfMonth
      let upd := UpdateRecurringReminder st.recurring reminderID userID
        label recurringType timeStr dayOfWeek dayOfMonth
      (if upd.1 then .recurringUpdated else .recurringUpdateFailed,
       { st with recurring := upd.2 })

/-- `strings.HasPrefix(op.ReminderID, "rec_")`, on code points ("rec_" is
ASCII, so byte-prefix and code-point-prefix coincide). -/
def hasRecMark (s : String) : Bool :=
  s.data.take 4 == "rec_".data

/-- `strings.TrimPrefix(s, "rec_")` after a positive prefix test. -/
def dropRecMark (s : String) : String :=
  (s.data.drop 4).asString

/-- `ReminderBot.processAdjustOperation` (src/bot/operations.go, lines
187-267): a `rec_`-prefixed id dispatches to the recurring path; otherwise
the one-shot path requires at least one of datetime/label, else replies
"nothing to change" without touching the store. -/
def processAdjustOperation (op : Operation) (userID : Int) (st : BotStore) :
    AdjustOutcome × BotStore :=
  if hasRecMark op.reminderId then
    match parseInt (dropRecMark op.reminderId) with
    | none => (.badRecurringId, st)
    | some rid => processAdjustRecurringOperation rid op userID st
  else
    match parseInt op.reminderId with
    | none => (.badReminderId, st)
    | some rid =>
        let hasDate := op.datetime ≠ ""
        let hasLabel := op.label ≠ ""
        if hasDate ∧ hasLabel then
          match parseDateTime op.datetime with
          | none => (.badDateFormat, st)
          | some t =>
              let u := UpdateReminder st.reminders rid userID t op.label
              (if u.1 then .oneShotUpdated else .oneShotNotFound,
               { st with reminders := u.2 })
        else if hasDate then
          match parseDateTime op.datetime with
          | none => (.badDateFormat, st)
          | some t =>
              let u := UpdateReminderTime st.reminders rid userID t
              (if u.1 then .oneShotUpdated else .oneShotNotFound,
               { st with reminders := u.2 })
        else if hasLabel then
          let u := UpdateReminderLabel st.reminders rid userID op.label
          (if u.1 then .oneShotUpdated else .oneShotNotFound,
           { st with reminders := u.2 })
        else (.nothingToChange, st)

/-! ## The recurring repository surface as one operation type (for the
soft-delete permanence claim) -/

/-- Any mutation the repository interface can perform on the
recurring-reminders table. -/
inductive RecRepoOp where
  | add (chatId userId : Int) (label : String) (rt : RecurringType)
      (timeStr : String) (dow dom : Int) (isTodo : Bool) (createdAt : Int)
  | update (id userId : Int) (label : String) (rt : RecurringType)
      (timeStr : String) (dow dom : Int)
  | softDelete (id userId : Int)
  | markTriggered (id : Int) (t : Int)

/-- Apply one repository operation. -/
def applyRecRepoOp (op : RecRepoOp) (st : RecStore) : RecStore :=
  match op with
  | .add c u l rt ts dw dm td ca => (AddRecurringReminder st c u l rt ts dw dm td ca).2
  | .update i u l rt ts dw dm =>
      { st with rows := (UpdateRecurringReminder st.rows i u l rt ts dw dm).2 }
  | .softDelete i u => { st with rows := (DeleteRecurringReminder st.rows i u).2 }
  | .markTriggered i t =>
      { st with rows := UpdateRecurringReminderLastTriggered st.rows i t }

/-- Apply a sequence of repository operations, oldest first. -/
def applyRecRepoOps (ops : List RecRepoOp) (st : RecStore) : RecStore :=
  ops.foldl (fun s op => applyRecRepoOp op s) st

/-- Definition `i` has been soft-deleted: every row carrying that id is
inactive, and the id is below the AUTOINCREMENT counter (it was assigned in
the past, so no future insert reuses it). -/
def Deactivated (i : Int) (st : RecStore) : Prop :=
  (∀ r ∈ st.rows, r.id = i → r.active = false) ∧ i < st.nextId

instance (i : Int) (st : RecStore) : Decidable (Deactivated i st) := by
  unfold Deactivated; infer_instance

/-- A recurring row as every write path of the repository produces it:
`day_of_week` is a stored value ≥ 0 or the NULL sentinel −1, `day_of_month`
a stored value ≥ 1 or −1 (`sql.NullInt64{Valid: dayOfWeek >= 0}` resp.
`Valid: dayOfMonth > 0`, read back through `IFNULL(..., -1)`). -/
def NormalizedRecRow (r : RecurringReminder) : Prop :=
  (r.dayOfWeek ≥ 0 ∨ r.dayOfWeek = -1) ∧ (r.dayOfMonth > 0 ∨ r.dayOfMonth = -1)

instance (r : RecurringReminder) : Decidable (NormalizedRecRow r) := by
  unfold NormalizedRecRow; infer_instance

/-- Strict calendar order on `(year, month, day)` keys. -/
def calendarLt (a b : Int × Int × Int) : Prop :=
  a.1 < b.1 ∨ (a.1 = b.1 ∧ (a.2.1 < b.2.1 ∨ (a.2.1 = b.2.1 ∧ a.2.2 < b.2.2)))

instance (a b : Int × Int × Int) : Decidable (calendarLt a b) := by
  unfold calendarLt; infer_instance

/-- The ordering the spec asserts for the multi-day list view, adapted to
what the code's day keys are: two output lines are in order when the first
one's date string is strictly smaller (earlier day group), or both belong to
the same day and either the first is a todo line, or both are timed lines in
nondecreasing `line[11:]` (time-of-day first) order. -/
def lineOrd (a b : String) : Prop :=
  (strLe (lineDate a) (lineDate b) = true ∧ lineDate a ≠ lineDate b) ∨
  (lineDate a = lineDate b ∧
    (isTodoLine a = true ∨
     (isTodoLine a = false ∧ isTodoLine b = false ∧ restLe a b)))

/-! ## Concrete fixtures used by counterexamples and witnesses -/

/-- An active daily definition at 09:00, never triggered. -/
def sampleDaily : RecurringReminder :=
  { id := 1, chatId := 10, userId := 7, label := "standup", createdAt := 0,
    recurringType := .daily, time := "09:00", dayOfWeek := -1,
    dayOfMonth := -1, lastTriggered := none, active := true, isTodo := false }

/-- The server's `time.Now()` on 1970-01-01 when its local wall clock
(UTC+3, e.g. Europe/Moscow) reads 09:00: absolute instant 06:00 UTC = 360
minutes since epoch. 1970-01-01 was a Thursday (weekday 4). -/
def serverNineAM : LocalInstant :=
  { year := 1970, month := 1, day := 1, hour := 9, minute := 0,
    weekday := 4, absMinutes := 360 }

/-- A second tick in the same server-local minute-of-day window (09:01),
same calendar day. -/
def serverNineOhOne : LocalInstant :=
  { year := 1970, month := 1, day := 1, hour := 9, minute := 1,
    weekday := 4, absMinutes := 361 }

/-- A due, unnotified, non-todo one-shot reminder. -/
def sampleOneShot : ReminderItem :=
  { id := 1, chatId := 10, userId := 7, reminderTime := 100,
    label := "call mom", notified := false, isTodo := false }

/-- An unnotified reminder owned by user 1, for the ownership-isolation
witness. -/
def ownedByUserOne : ReminderItem :=
  { id := 5, chatId := 11, userId := 1, reminderTime := 500,
    label := "dentist", notified := false, isTodo := false }

/-- An active weekly definition (Tuesday 19:00) owned by user 7, id 42. -/
def sampleWeekly : RecurringReminder :=
  { id := 42, chatId := 10, userId := 7, label := "yoga", createdAt := 5,
    recurringType := .weekly, time := "19:00", dayOfWeek := 2,
    dayOfMonth := -1, lastTriggered := none, active := true, isTodo := false }

/-- An `adjust` operation for `rec_42` that provides no field at all. -/
def emptyAdjustRecOp : Operation :=
  { action := "adjust", datetime := "", label := "", reminderId := "rec_42",
    answer := "", startDate := "", endDate := "", recurringType := "",
    time := "", dayOfWeek := "", dayOfMonth := "" }

/-- An `adjust` operation for plain id 5 that provides no field at all. -/
def emptyAdjustOp : Operation :=
  { action := "adjust", datetime := "", label := "", reminderId := "5",
    answer := "", startDate := "", endDate := "", recurringType := "",
    time := "", dayOfWeek := "", dayOfMonth := "" }

/-- Store for the adjust fixtures. -/
def sampleStore : BotStore :=
  { reminders := [ownedByUserOne], recurring := [sampleWeekly] }

/-- A soft-deleted (inactive) weekly definition with id 3. -/
def deletedWeekly : RecurringReminder :=
  { id := 3, chatId := 10, userId := 7, label := "old", createdAt := 2,
    recurringType := .weekly, time := "08:00", dayOfWeek := 1,
    dayOfMonth := -1, lastTriggered := some 100, active := false,
    isTodo := false }

/-- Recurring store holding only the soft-deleted definition. -/
def deletedStore : RecStore :=
  { rows := [deletedWeekly], nextId := 4 }

/-- Server-local view of Tuesday 1970-01-06 19:00 UTC (weekday 2). -/
def tuesdaySevenPM : LocalInstant :=
  { year := 1970, month := 1, day := 6, hour := 19, minute := 0,
    weekday := 2, absMinutes := 8340 }

/-- Server-local view of Thursday 1970-04-30 09:00 UTC: the last day of a
30-day month. -/
def april30Now : LocalInstant :=
  { year := 1970, month := 4, day := 30, hour := 9, minute := 0,
    weekday := 4, absMinutes := 119 * 1440 + 540 }

/-- An active monthly definition on the 31st at 09:00. -/
def monthly31 : RecurringReminder :=
  { id := 8, chatId := 10, userId := 7, label := "rent", createdAt := 1,
    recurringType := .monthly, time := "09:00", dayOfWeek := -1,
    dayOfMonth := 31, lastTriggered := none, active := true, isTodo := false }

/-! ## Helper lemmas -/

theorem map_ite_id {α : Type} (p : α → Bool) (f : α → α) (l : List α)
    (h : ∀ x ∈ l, p x = false) :
    l.map (fun x => if p x then f x else x) = l := by
  have : l.map (fun x => if p x then f x else x) = l.map id :=
    List.map_congr_left (fun a ha => by rw [h a ha]; simp)
  simpa using this

theorem any_eq_false_of {α : Type} (p : α → Bool) (l : List α)
    (h : ∀ x ∈ l, p x = false) : l.any p = false := by
  simp only [List.any_eq_false]
  intro x hx
  simp [h x hx]

theorem oneShotHit_false {db : List ReminderItem} {id userID : Int}
    (h : ∀ r ∈ db, ¬(r.id = id ∧ r.userId = userID ∧ r.notified = false)) :
    ∀ r ∈ db, (r.id == id && r.userId == userID && !r.notified) = false := by
  intro r hr
  by_contra hb
  rw [Bool.not_eq_false, Bool.and_eq_true, Bool.and_eq_true] at hb
  exact h r hr ⟨by simpa using hb.1.1, by simpa using hb.1.2,
    by simpa using hb.2⟩

/-! ## C4: ownership / not-found / already-notified no-op contract -/

/-- C4 (confirmed): when no stored reminder simultaneously carries the
target id, belongs to the calling user and is still unnotified — i.e. the
id does not exist, is another user's, or is already notified — then
`UpdateReminderTime`, `UpdateReminderLabel`, `UpdateReminder` and
`DeleteReminder` all report `false` and leave the table exactly as it was. -/
theorem C4_ownership_noop (db : List ReminderItem) (id userID : Int)
    (t : Int) (label : String)
    (h : ∀ r ∈ db, ¬(r.id = id ∧ r.userId = userID ∧ r.notified = false)) :
    UpdateReminderTime db id userID t = (false, db) ∧
    UpdateReminderLabel db id userID label = (false, db) ∧
    UpdateReminder db id userID t label = (false, db) ∧
    DeleteReminder db id userID = (false, db) := by
  have hf := oneShotHit_false h
  refine ⟨?_, ?_, ?_, ?_⟩
  · unfold UpdateReminderTime
    rw [Prod.mk.injEq]
    exact ⟨any_eq_false_of _ _ hf, map_ite_id _ _ _ hf⟩
  · unfold UpdateReminderLabel
    rw [Prod.mk.injEq]
    exact ⟨any_eq_false_of _ _ hf, map_ite_id _ _ _ hf⟩
  · unfold UpdateReminder
    rw [Prod.mk.injEq]
    exact ⟨any_eq_false_of _ _ hf, map_ite_id _ _ _ hf⟩
  · unfold DeleteReminder
    rw [Prod.mk.injEq]
    refine ⟨any_eq_false_of _ _ hf, List.filter_eq_self.mpr ?_⟩
    intro a ha
    simp only [Bool.not_eq_true']
    exact hf a ha

/-- C4 witness: user 2 tries to edit/delete user 1's unnotified reminder
(id 5) — every mutation reports `false` and the row is untouched. -/
theorem C4_ownership_noop_witness :
    UpdateReminderTime [ownedByUserOne] 5 2 999 = (false, [ownedByUserOne]) ∧
    UpdateReminderLabel [ownedByUserOne] 5 2 "x" = (false, [ownedByUserOne]) ∧
    UpdateReminder [ownedByUserOne] 5 2 999 "x" = (false, [ownedByUserOne]) ∧
    DeleteReminder [ownedByUserOne] 5 2 = (false, [ownedByUserOne]) :=
  C4_ownership_noop [ownedByUserOne] 5 2 999 "x" (by decide)

/-! ## C5: batch mark-notified is all-or-nothing -/

theorem execMarkBatch_ok (fails : Int → Bool) :
    ∀ (ids : List Int) (db db' : List ReminderItem),
      execMarkBatch fails ids db = .ok db' →
      db' = db.map
        (fun r => if ids.contains r.id then { r with notified := true } else r)
  | [], db, db', h => by
      simp only [execMarkBatch] at h
      cases h
      simp [List.contains]
  | id :: rest, db, db', h => by
      simp only [execMarkBatch] at h
      by_cases hf : fails id
      · simp [hf] at h
      · rw [if_neg hf] at h
        have ih := execMarkBatch_ok fails rest (markNotifiedRow id db) db' h
        rw [ih]
        unfold markNotifiedRow
        rw [List.map_map]
        refine List.map_congr_left ?_
        intro r _
        by_cases hid : r.id == id
        · simp only [Function.comp, hid, if_pos]
          have hc : (id :: rest).contains r.id = true := by
            simp only [List.contains_cons, hid, Bool.true_or]
          rw [hc]
          by_cases hrest : rest.contains r.id <;> simp [hrest]
        · simp only [Function.comp, hid, if_neg, Bool.false_eq_true,
            not_false_eq_true]
          have hc : (id :: rest).contains r.id = rest.contains r.id := by
            simp only [List.contains_cons, hid, Bool.false_or]
          rw [hc]

/-- C5 (confirmed): `MarkMultipleAsNotified` is atomic. Whatever ids are
passed and wherever the per-id statement or the commit fails, the resulting
table is either exactly the old table (nothing marked) or exactly the old
table with every listed id marked notified — no partial batch is ever
observable. -/
theorem C5_mark_all_or_nothing (fails : Int → Bool) (commitOk : Bool)
    (ids : List Int) (db : List ReminderItem) :
    (MarkMultipleAsNotified fails commitOk ids db).2 = db ∨
    (MarkMultipleAsNotified fails commitOk ids db).2 =
      db.map
        (fun r => if ids.contains r.id then { r with notified := true } else r) := by
  unfold MarkMultipleAsNotified
  by_cases hids : ids.isEmpty
  · left
    simp [hids]
  · rw [if_neg hids]
    cases hex : execMarkBatch fails ids db with
    | error e => left; rfl
    | ok db' =>
        by_cases hc : commitOk
        · right
          simp only [hc, if_pos]
          exact execMarkBatch_ok fails ids db db' hex
        · left
          simp [hc]

/-! ## C6: half-open period query -/

/-- C6 (confirmed): `GetUserRemindersByPeriod(userID, start, end)` returns
exactly the caller's unnotified reminders with `start ≤ fireAt < end`
(a permutation of that filter of the table), ordered nondecreasing by
`fireAt`; a reminder at exactly `start` is included (whenever the interval
is nonempty) and one at exactly `end` is never returned. -/
theorem C6_period_query (userID start endEx : Int) (db : List ReminderItem) :
    (GetUserRemindersByPeriod userID start endEx db).Perm
      (db.filter (fun r => r.userId == userID && !r.notified &&
        decide (start ≤ r.reminderTime) && decide (r.reminderTime < endEx))) ∧
    (GetUserRemindersByPeriod userID start endEx db).Pairwise fireAtLe ∧
    (∀ r ∈ db, r.userId = userID → r.notified = false → r.reminderTime = start →
       start < endEx → r ∈ GetUserRemindersByPeriod userID start endEx db) ∧
    (∀ r : ReminderItem, r.reminderTime = endEx →
       r ∉ GetUserRemindersByPeriod userID start endEx db) := by
  refine ⟨List.perm_insertionSort _ _, List.sorted_insertionSort _ _, ?_, ?_⟩
  · intro r hr hu hn ht hlt
    unfold GetUserRemindersByPeriod
    rw [List.mem_insertionSort]
    refine List.mem_filter.mpr ⟨hr, ?_⟩
    simp [hu, hn, ht, le_of_lt hlt, hlt]
  · intro r ht hmem
    unfold GetUserRemindersByPeriod at hmem
    rw [List.mem_insertionSort] at hmem
    have h2 := (List.mem_filter.mp hmem).2
    simp [ht] at h2

/-- C6 witness: with the interval `[500, 940)`, user 1's reminder firing at
exactly 500 is returned. -/
theorem C6_period_query_witness :
    ownedByUserOne ∈ GetUserRemindersByPeriod 1 500 940 [ownedByUserOne] :=
  (C6_period_query 1 500 940 [ownedByUserOne]).2.2.1 ownedByUserOne
    (by decide) (by decide) (by decide) (by decide) (by decide)

/-! ## C1: which timezone drives the recurring due check -/

theorem mem_GetDueRecurringReminders {rows : List RecurringReminder}
    {now : LocalInstant} {r : RecurringReminder} :
    r ∈ GetDueRecurringReminders rows now ↔
      r ∈ rows ∧ dueRecurring now r = true :=
  List.mem_filter

/-- C1 counterexample: the claim says `GetDueRecurringReminders` selects a
definition only when its stored time equals `now` truncated to the minute in
the owning user's configured timezone. Take the server in UTC+3 (offset 180
min, consistency of `serverNineAM`'s wall clock with that offset is the
second conjunct) and a user whose configured timezone is UTC+4 (offset 240
min). At absolute instant 360 (06:00 UTC) the server wall clock reads 09:00
and the daily definition with stored time "09:00" IS selected — although in
the user's timezone the minute reads "10:00", which differs from the stored
time. The scheduler passes server-local `time.Now()` and the query never
consults `user_preferences`. -/
theorem C1_counterexample :
    GetDueRecurringReminders [sampleDaily] serverNineAM = [sampleDaily] ∧
    (serverNineAM.absMinutes + 180).emod 1440 =
      ((serverNineAM.hour : Int) * 60 + (serverNineAM.minute : Int)) ∧
    serverNineAM.Valid ∧
    userLocalHHMM serverNineAM.absMinutes 240 = "10:00" ∧
    sampleDaily.time ≠ "10:00" := by
  refine ⟨by decide, by decide, by decide, by decide, by decide⟩

/-- C1 amended: the recurring due check matches the stored time-of-day
against `now` truncated to the minute in the timezone attached to the `now`
value the caller passes — and `processRecurringReminders` passes
server-local `time.Now()`, never the user's `UserPreferences` timezone — and
the `lastTriggered` comparison uses start-of-today computed in that same
(server-local) location. -/
theorem C1_server_local_selection (rows : List RecurringReminder)
    (now : LocalInstant) (r : RecurringReminder)
    (h : r ∈ GetDueRecurringReminders rows now) :
    r.time = formatHHMM now.hour now.minute ∧
    (∀ t, r.lastTriggered = some t → t < now.startOfToday) := by
  have hd := (mem_GetDueRecurringReminders.mp h).2
  unfold dueRecurring at hd
  simp only [Bool.and_eq_true, beq_iff_eq] at hd
  refine ⟨hd.1.1.2, ?_⟩
  intro t ht
  have h2 := hd.2
  rw [ht] at h2
  simpa using h2

/-- C1 witness: the selected daily definition indeed carries the server
wall-clock minute string. -/
theorem C1_server_local_selection_witness :
    sampleDaily.time = formatHHMM serverNineAM.hour serverNineAM.minute :=
  (C1_server_local_selection [sampleDaily] serverNineAM sampleDaily
    (by decide)).1

/-! ## C9: exact weekly/monthly pattern match, no rollover -/

/-- C9 (confirmed): in the due check a Weekly definition is selected only
when `now`'s weekday equals its `dayOfWeek` and a Monthly one only when
`now`'s day-of-month equals its `dayOfMonth`; every calendar-projection
occurrence likewise comes from a definition whose pattern matches the
occurrence's date; and a Monthly definition with `dayOfMonth = 31` matches
no valid date of a month with fewer than 31 days and is never selected by
the due check on such a date — no rollover to the month's last day. -/
theorem C9_pattern_exact :
    (∀ (rows : List RecurringReminder) (now : LocalInstant)
       (r : RecurringReminder), r ∈ GetDueRecurringReminders rows now →
       (r.recurringType = .weekly → r.dayOfWeek = (now.weekday : Int)) ∧
       (r.recurringType = .monthly → r.dayOfMonth = (now.day : Int))) ∧
    (∀ (userID : Int) (rows : List RecurringReminder) (days : List DateView)
       (e : RecurringEvent),
       e ∈ getApplicableRecurringReminders userID rows days →
       e.date ∈ days ∧ ∃ r ∈ GetUserRecurringReminders userID rows,
         r.id = e.id ∧ r.label = e.label ∧ r.time = e.time ∧
         applicableOn r e.date = true) ∧
    (∀ (now : LocalInstant) (r : RecurringReminder), now.Valid →
       daysInMonth now.year now.month < 31 → r.recurringType = .monthly →
       r.dayOfMonth = 31 →
       patternMatchesNow now r = false ∧
       ∀ rows : List RecurringReminder, r ∉ GetDueRecurringReminders rows now) ∧
    (∀ (d : DateView) (r : RecurringReminder), d.Valid →
       daysInMonth d.year d.month < 31 → r.recurringType = .monthly →
       r.dayOfMonth = 31 → applicableOn r d = false) := by
  have hday : ∀ (dayN : Nat) (r : RecurringReminder),
      dayN < 31 → r.dayOfMonth = 31 → (r.dayOfMonth == (dayN : Int)) = false := by
    intro dayN r hlt hm
    rw [beq_eq_false_iff_ne, hm]
    intro hE
    have : dayN = 31 := by exact_mod_cast hE.symm
    omega
  refine ⟨?_, ?_, ?_, ?_⟩
  · intro rows now r h
    have hd := (mem_GetDueRecurringReminders.mp h).2
    unfold dueRecurring at hd
    simp only [Bool.and_eq_true] at hd
    have hp := hd.1.2
    constructor
    · intro hw
      unfold patternMatchesNow at hp
      rw [hw] at hp
      simpa using hp
    · intro hm
      unfold patternMatchesNow at hp
      rw [hm] at hp
      simpa using hp
  · intro userID rows days e he
    unfold getApplicableRecurringReminders at he
    simp only [List.mem_flatMap, List.mem_map, List.mem_filter] at he
    obtain ⟨d, hd, r, ⟨hrmem, happ⟩, hre⟩ := he
    subst hre
    exact ⟨hd, r, hrmem, rfl, rfl, rfl, happ⟩
  · intro now r hv hdim hm h31
    have hlt : now.day < 31 := lt_of_le_of_lt hv.2.2.2.2.2.2 hdim
    have hfalse : patternMatchesNow now r = false := by
      unfold patternMatchesNow
      rw [hm]
      exact hday now.day r hlt h31
    refine ⟨hfalse, ?_⟩
    intro rows hmem
    have hd := (mem_GetDueRecurringReminders.mp hmem).2
    unfold dueRecurring at hd
    simp only [Bool.and_eq_true] at hd
    rw [hfalse] at hd
    exact Bool.false_ne_true hd.1.2
  · intro d r hv hdim hm h31
    have hlt : d.day < 31 := lt_of_le_of_lt hv.2.2.2.2 hdim
    unfold applicableOn
    rw [hm]
    exact hday d.day r hlt h31

/-- C9 witness: the monthly-31 definition does not match 1970-04-30
(April has 30 days). -/
theorem C9_pattern_exact_witness :
    patternMatchesNow april30Now monthly31 = false :=
  ((C9_pattern_exact.2.2.1 april30Now monthly31 (by decide) (by decide)
    rfl rfl)).1

/-! ## C10: soft-deleted recurring definitions are frozen forever -/

theorem recHit_false {rows : List RecurringReminder} {i : Int}
    (h1 : ∀ r ∈ rows, r.id = i → r.active = false) (u : Int) :
    ∀ r ∈ rows, (r.id == i && r.userId == u && r.active) = false := by
  intro r hr
  by_cases hid : r.id = i
  · have := h1 r hr hid
    simp [this]
  · simp [hid]

theorem deactivated_preserved (i : Int) (st : RecStore) (op : RecRepoOp)
    (h : Deactivated i st) : Deactivated i (applyRecRepoOp op st) := by
  obtain ⟨h1, h2⟩ := h
  cases op with
  | add c u l rt ts dw dm td ca =>
      refine ⟨?_, ?_⟩
      · intro r hr hri
        simp only [applyRecRepoOp, AddRecurringReminder, List.mem_append,
          List.mem_singleton] at hr
        rcases hr with hr | hr
        · exact h1 r hr hri
        · subst hr
          simp only at hri
          omega
      · simp only [applyRecRepoOp, AddRecurringReminder]
        omega
  | update j u l rt ts dw dm =>
      refine ⟨?_, h2⟩
      intro r hr hri
      simp only [applyRecRepoOp, UpdateRecurringReminder, List.mem_map] at hr
      obtain ⟨a, ha, hfa⟩ := hr
      by_cases hhit : (a.id == j && a.userId == u && a.active) = true
      · rw [if_pos hhit] at hfa
        subst hfa
        exact h1 a ha (by simpa using hri)
      · rw [if_neg hhit] at hfa
        subst hfa
        exact h1 a ha hri
  | softDelete j u =>
      refine ⟨?_, h2⟩
      intro r hr hri
      simp only [applyRecRepoOp, DeleteRecurringReminder, List.mem_map] at hr
      obtain ⟨a, ha, hfa⟩ := hr
      by_cases hhit : (a.id == j && a.userId == u && a.active) = true
      · rw [if_pos hhit] at hfa
        subst hfa
        rfl
      · rw [if_neg hhit] at hfa
        subst hfa
        exact h1 a ha hri
  | markTriggered j t =>
      refine ⟨?_, h2⟩
      intro r hr hri
      simp only [applyRecRepoOp, UpdateRecurringReminderLastTriggered,
        List.mem_map] at hr
      obtain ⟨a, ha, hfa⟩ := hr
      by_cases hhit : (a.id == j) = true
      · rw [if_pos hhit] at hfa
        subst hfa
        exact h1 a ha (by simpa using hri)
      · rw [if_neg hhit] at hfa
        subst hfa
        exact h1 a ha hri

theorem deactivated_preserved_ops (i : Int) :
    ∀ (ops : List RecRepoOp) (st : RecStore), Deactivated i st →
      Deactivated i (applyRecRepoOps ops st)
  | [], _, h => h
  | op :: rest, st, h =>
      deactivated_preserved_ops i rest (applyRecRepoOp op st)
        (deactivated_preserved i st op h)

/-- C10 (confirmed): once every row with id `i` is inactive (as
`DeleteRecurringReminder` leaves it) and `i` is below the id counter, the
definition is frozen at the repository interface: `UpdateRecurringReminder`
and a second `DeleteRecurringReminder` report `false` and change nothing,
the id appears in no `GetUserRecurringReminders` or
`GetDueRecurringReminders` result, and no sequence of repository operations
ever reactivates it. -/
theorem C10_soft_delete_permanent (st : RecStore) (i : Int)
    (h : Deactivated i st) :
    (∀ (userId : Int) (label : String) (rt : RecurringType) (ts : String)
       (dw dm : Int),
       UpdateRecurringReminder st.rows i userId label rt ts dw dm =
         (false, st.rows)) ∧
    (∀ userId : Int,
       DeleteRecurringReminder st.rows i userId = (false, st.rows)) ∧
    (∀ userId : Int, ∀ r ∈ GetUserRecurringReminders userId st.rows,
       r.id ≠ i) ∧
    (∀ now : LocalInstant, ∀ r ∈ GetDueRecurringReminders st.rows now,
       r.id ≠ i) ∧
    (∀ ops : List RecRepoOp, Deactivated i (applyRecRepoOps ops st)) := by
  have hf := recHit_false h.1
  refine ⟨?_, ?_, ?_, ?_, fun ops => deactivated_preserved_ops i ops st h⟩
  · intro u l rt ts dw dm
    unfold UpdateRecurringReminder
    rw [Prod.mk.injEq]
    exact ⟨any_eq_false_of _ _ (hf u), map_ite_id _ _ _ (hf u)⟩
  · intro u
    unfold DeleteRecurringReminder
    rw [Prod.mk.injEq]
    exact ⟨any_eq_false_of _ _ (hf u), map_ite_id _ _ _ (hf u)⟩
  · intro u r hr hid
    unfold GetUserRecurringReminders at hr
    rw [List.mem_insertionSort] at hr
    have hm := List.mem_filter.mp hr
    have hact : r.active = true := by
      have := hm.2
      simp only [Bool.and_eq_true] at this
      exact this.2
    have := h.1 r hm.1 hid
    rw [hact] at this
    simp at this
  · intro now r hr hid
    have hm := mem_GetDueRecurringReminders.mp hr
    have hact : r.active = true := by
      have hd := hm.2
      unfold dueRecurring at hd
      simp only [Bool.and_eq_true] at hd
      exact hd.1.1.1.1
    have := h.1 r hm.1 hid
    rw [hact] at this
    simp at this

/-- C10 witness: a second delete of the already-inactive definition id 3
reports `false` and leaves the table unchanged. -/
theorem C10_soft_delete_permanent_witness :
    DeleteRecurringReminder deletedStore.rows 3 7 = (false, deletedStore.rows) :=
  (C10_soft_delete_permanent deletedStore 3 (by decide)).2.1 7

/-! ## Scheduler-sweep machinery (shared by the delivery-policy and
at-most-once analyses) -/

theorem execMarkBatch_noFail_ok :
    ∀ (ids : List Int) (db : List ReminderItem),
      ∃ db', execMarkBatch (fun _ => false) ids db = .ok db'
  | [], db => ⟨db, rfl⟩
  | id :: rest, db => execMarkBatch_noFail_ok rest (markNotifiedRow id db)

theorem markMultiple_noFail (ids : List Int) (db : List ReminderItem) :
    (MarkMultipleAsNotified (fun _ => false) true ids db).2 =
      db.map
        (fun r => if ids.contains r.id then { r with notified := true } else r) := by
  unfold MarkMultipleAsNotified
  by_cases hids : ids.isEmpty
  · have h0 : ids = [] := List.isEmpty_iff.mp hids
    subst h0
    simp
  · rw [if_neg hids]
    cases hex : execMarkBatch (fun _ => false) ids db with
    | error e =>
        obtain ⟨db', h'⟩ := execMarkBatch_noFail_ok ids db
        rw [hex] at h'
        cases h'
    | ok db' =>
        simpa using execMarkBatch_ok _ ids db db' hex

theorem fireDue_fired (sendOk : Int → Bool) (t : Int) :
    ∀ (due rows : List RecurringReminder),
      (fireDue sendOk t due rows).2 =
        (due.filter (fun r => sendOk r.id)).map (fun r => r.id)
  | [], _ => rfl
  | r :: rest, rows => by
      by_cases hs : sendOk r.id
      · simp only [fireDue, hs, if_pos, List.filter_cons, List.map_cons]
        rw [fireDue_fired sendOk t rest _]
      · simp only [fireDue, hs, List.filter_cons, if_neg, Bool.false_eq_true,
          not_false_eq_true]
        rw [fireDue_fired sendOk t rest rows]

theorem fireDue_rows (sendOk : Int → Bool) (t : Int) :
    ∀ (due rows : List RecurringReminder),
      (fireDue sendOk t due rows).1 =
        rows.map (fun r =>
          if due.any (fun d => sendOk d.id && d.id == r.id) then
            { r with lastTriggered := some t }
          else r)
  | [], rows => by
      simp [fireDue]
  | d :: rest, rows => by
      by_cases hs : sendOk d.id
      · simp only [fireDue, hs, if_pos]
        rw [fireDue_rows sendOk t rest _]
        unfold UpdateRecurringReminderLastTriggered
        rw [List.map_map]
        refine List.map_congr_left ?_
        intro r _
        simp only [Function.comp, List.any_cons, hs, Bool.true_and]
        by_cases hid : d.id = r.id
        · have hb : (r.id == d.id) = true := by simp [hid]
          have hb' : (d.id == r.id) = true := by simp [hid]
          rw [if_pos hb, hb']
          simp only [Bool.true_or, if_pos]
          by_cases hrest :
              rest.any (fun x => sendOk x.id && x.id == r.id) = true
          · rw [if_pos hrest]
          · rw [if_neg hrest]
        · have hb : (r.id == d.id) = false := by simp [Ne.symm hid]
          have hb' : (d.id == r.id) = false := by simp [hid]
          rw [hb, hb']
          simp only [if_neg, Bool.false_eq_true, not_false_eq_true,
            Bool.false_or]
      · simp only [fireDue, hs, if_neg, Bool.false_eq_true, not_false_eq_true]
        rw [fireDue_rows sendOk t rest rows]
        refine List.map_congr_left ?_
        intro r _
        simp only [List.any_cons, hs, Bool.false_and, Bool.false_or]

theorem fireDue_countId (sendOk : Int → Bool) (t : Int)
    (due rows : List RecurringReminder) (i : Int) :
    ((fireDue sendOk t due rows).1.countP (fun r => r.id == i)) =
      rows.countP (fun r => r.id == i) := by
  rw [fireDue_rows, List.countP_map]
  refine List.countP_congr ?_
  intro a _
  simp only [Function.comp]
  by_cases h : due.any (fun d => sendOk d.id && d.id == a.id) = true
  · rw [if_pos h]
  · rw [if_neg h]

/-! ## C2: what happens to due items whose send fails -/

/-- C2 counterexample: the claim says every due item is consumed regardless
of the send outcome. Here every send fails (`sendOk` constantly false): the
due one-shot reminder is NOT batch-marked (the sweep leaves the table
unchanged, the row still unnotified and still due), and the due recurring
definition keeps `lastTriggered = none` — in the source, `continue` on a
send error skips both the id collection and `MarkTriggered`. -/
theorem C2_counterexample :
    GetDueReminders 100 [sampleOneShot] = [sampleOneShot] ∧
    sampleOneShot.notified = false ∧
    processDueReminders (fun _ => false) (fun _ => false) true 100
      [sampleOneShot] = [sampleOneShot] ∧
    GetDueRecurringReminders [sampleDaily] serverNineAM = [sampleDaily] ∧
    (processRecurringReminders (fun _ => false) serverNineAM
      [sampleDaily]).1 = [sampleDaily] ∧
    sampleDaily.lastTriggered = none := by
  refine ⟨by decide, by decide, by decide, by decide, by decide, by decide⟩

/-- C2 amended: the sweeps consume exactly the successfully sent due items.
A due one-shot reminder whose send failed is left untouched (every row with
its id survives unchanged, so it stays due for the next tick), while a
successfully sent one is batch-marked; a due recurring definition whose
send failed keeps its old `lastTriggered`, while a successfully sent one
gets `lastTriggered := now`. (The batch-mark itself is taken to succeed
here; its own failure atomicity is the subject of the batch-mark claim.) -/
theorem C2_send_failure_skips_marking
    (sendOk : Int → Bool) (now : Int) (db : List ReminderItem)
    (snow : LocalInstant) (rows : List RecurringReminder) :
    (∀ r ∈ GetDueReminders now db, sendOk r.id = false →
       ∀ r' ∈ db, r'.id = r.id →
         r' ∈ processDueReminders sendOk (fun _ => false) true now db) ∧
    (∀ r ∈ GetDueReminders now db, sendOk r.id = true →
       ({ r with notified := true } : ReminderItem) ∈
         processDueReminders sendOk (fun _ => false) true now db) ∧
    (∀ r ∈ GetDueRecurringReminders rows snow, sendOk r.id = false →
       ∀ r' ∈ rows, r'.id = r.id →
         r' ∈ (processRecurringReminders sendOk snow rows).1) ∧
    (∀ r ∈ GetDueRecurringReminders rows snow, sendOk r.id = true →
       ∀ r' ∈ (processRecurringReminders sendOk snow rows).1, r'.id = r.id →
         r'.lastTriggered = some snow.absMinutes) := by
  refine ⟨?_, ?_, ?_, ?_⟩
  · intro r hr hsend r' hr' hid
    unfold processDueReminders
    rw [markMultiple_noFail]
    have hcont :
        (((GetDueReminders now db).filter (fun x => sendOk x.id)).map
          (fun x => x.id)).contains r'.id = false := by
      by_contra hb
      rw [Bool.not_eq_false] at hb
      have hmem := List.elem_iff.mp hb
      obtain ⟨x, hx, hxi⟩ := List.mem_map.mp hmem
      have hxs := (List.mem_filter.mp hx).2
      rw [hxi, hid, hsend] at hxs
      cases hxs
    refine List.mem_map.mpr ⟨r', hr', ?_⟩
    rw [hcont]
    simp
  · intro r hr hsend
    have hrdb : r ∈ db := by
      unfold GetDueReminders at hr
      rw [List.mem_insertionSort] at hr
      exact (List.mem_filter.mp hr).1
    unfold processDueReminders
    rw [markMultiple_noFail]
    have hcont :
        (((GetDueReminders now db).filter (fun x => sendOk x.id)).map
          (fun x => x.id)).contains r.id = true := by
      refine List.elem_iff.mpr ?_
      exact List.mem_map.mpr ⟨r, List.mem_filter.mpr ⟨hr, by simp [hsend]⟩, rfl⟩
    refine List.mem_map.mpr ⟨r, hrdb, ?_⟩
    rw [hcont]
    simp
  · intro r hr hsend r' hr' hid
    unfold processRecurringReminders
    rw [fireDue_rows]
    have hany :
        (GetDueRecurringReminders rows snow).any
          (fun d => sendOk d.id && d.id == r'.id) = false := by
      by_contra hb
      rw [Bool.not_eq_false, List.any_eq_true] at hb
      obtain ⟨d, _, hd2⟩ := hb
      rw [Bool.and_eq_true, beq_iff_eq] at hd2
      rw [hd2.2, hid, hsend] at hd2
      cases hd2.1
    refine List.mem_map.mpr ⟨r', hr', ?_⟩
    rw [hany]
    simp
  · intro r hr hsend r' hr' hid
    unfold processRecurringReminders at hr'
    rw [fireDue_rows] at hr'
    obtain ⟨a, _, hga⟩ := List.mem_map.mp hr'
    have haid : a.id = r'.id := by
      by_cases hc : (GetDueRecurringReminders rows snow).any
          (fun d => sendOk d.id && d.id == a.id) = true
      · rw [if_pos hc] at hga
        rw [← hga]
      · rw [if_neg hc] at hga
        rw [← hga]
    have hany :
        (GetDueRecurringReminders rows snow).any
          (fun d => sendOk d.id && d.id == a.id) = true := by
      rw [List.any_eq_true]
      exact ⟨r, hr, by simp [hsend, haid, hid]⟩
    rw [if_pos hany] at hga
    rw [← hga]

/-- C2 witness: a successfully sent due reminder is marked notified by the
sweep. -/
theorem C2_send_failure_skips_marking_witness :
    ({ sampleOneShot with notified := true } : ReminderItem) ∈
      processDueReminders (fun _ => true) (fun _ => false) true 100
        [sampleOneShot] :=
  (C2_send_failure_skips_marking (fun _ => true) 100 [sampleOneShot]
    serverNineAM []).2.1 sampleOneShot (by decide) rfl

/-! ## C3: the lastTriggered watermark gives at most one fire per day -/

theorem startOfToday_le_absMinutes (n : LocalInstant) :
    n.startOfToday ≤ n.absMinutes := by
  unfold LocalInstant.startOfToday
  omega

theorem dead_tick_count (sendOk : Int → Bool) (now : LocalInstant)
    (rows : List RecurringReminder) (i D : Int)
    (hD : now.startOfToday = D)
    (hW : ∀ r ∈ rows, r.id = i → ∃ u, r.lastTriggered = some u ∧ D ≤ u) :
    (processRecurringReminders sendOk now rows).2.count i = 0 := by
  unfold processRecurringReminders
  rw [fireDue_fired, List.count_eq_zero]
  intro hmem
  obtain ⟨x, hx, hxi⟩ := List.mem_map.mp hmem
  have hxdue := (List.mem_filter.mp hx).1
  have hxmem := mem_GetDueRecurringReminders.mp hxdue
  obtain ⟨u, hu, hDu⟩ := hW x hxmem.1 hxi
  have hd := hxmem.2
  unfold dueRecurring at hd
  simp only [Bool.and_eq_true] at hd
  have hw := hd.2
  rw [hu] at hw
  simp only [decide_eq_true_eq] at hw
  rw [hD] at hw
  omega

theorem tick_W_preserved (sendOk : Int → Bool) (now : LocalInstant)
    (rows : List RecurringReminder) (i D : Int)
    (hD : now.startOfToday = D)
    (hW : ∀ r ∈ rows, r.id = i → ∃ u, r.lastTriggered = some u ∧ D ≤ u) :
    ∀ r' ∈ (processRecurringReminders sendOk now rows).1, r'.id = i →
      ∃ u, r'.lastTriggered = some u ∧ D ≤ u := by
  intro r' hr' hid
  unfold processRecurringReminders at hr'
  rw [fireDue_rows] at hr'
  obtain ⟨a, ha, hga⟩ := List.mem_map.mp hr'
  by_cases hc : (GetDueRecurringReminders rows now).any
      (fun d => sendOk d.id && d.id == a.id) = true
  · rw [if_pos hc] at hga
    refine ⟨now.absMinutes, ?_, ?_⟩
    · rw [← hga]
    · rw [← hD]
      exact startOfToday_le_absMinutes now
  · rw [if_neg hc] at hga
    subst hga
    exact hW a ha hid

theorem dead_run_count (i D : Int) :
    ∀ (ticks : List (LocalInstant × (Int → Bool)))
      (rows : List RecurringReminder),
      (∀ p ∈ ticks, (p.1).startOfToday = D) →
      (∀ r ∈ rows, r.id = i → ∃ u, r.lastTriggered = some u ∧ D ≤ u) →
      (runTicks ticks rows).2.count i = 0
  | [], rows, _, _ => by simp [runTicks]
  | (now, ok) :: rest, rows, hticks, hW => by
      have hD : now.startOfToday = D := hticks (now, ok) (List.mem_cons_self _ _)
      simp only [runTicks, List.count_append]
      rw [dead_tick_count ok now rows i D hD hW,
        dead_run_count i D rest _
          (fun p hp => hticks p (List.mem_cons_of_mem _ hp))
          (tick_W_preserved ok now rows i D hD hW)]

theorem tick_count_le (sendOk : Int → Bool) (now : LocalInstant)
    (rows : List RecurringReminder) (i : Int)
    (hcount : rows.countP (fun r => r.id == i) ≤ 1) :
    (processRecurringReminders sendOk now rows).2.count i ≤ 1 := by
  unfold processRecurringReminders
  rw [fireDue_fired]
  have h1 : ((((GetDueRecurringReminders rows now).filter
      (fun r => sendOk r.id)).map (fun r => r.id)).count i) =
      ((GetDueRecurringReminders rows now).filter
        (fun r => sendOk r.id)).countP (fun r => r.id == i) := by
    unfold List.count
    rw [List.countP_map]
    rfl
  rw [h1]
  calc ((GetDueRecurringReminders rows now).filter
        (fun r => sendOk r.id)).countP (fun r => r.id == i)
      ≤ (GetDueRecurringReminders rows now).countP (fun r => r.id == i) :=
        (List.filter_sublist _).countP_le _
    _ ≤ rows.countP (fun r => r.id == i) :=
        (List.filter_sublist _).countP_le _
    _ ≤ 1 := hcount

theorem tick_fired_W (sendOk : Int → Bool) (now : LocalInstant)
    (rows : List RecurringReminder) (i D : Int)
    (hD : now.startOfToday = D)
    (h1 : 1 ≤ (processRecurringReminders sendOk now rows).2.count i) :
    ∀ r' ∈ (processRecurringReminders sendOk now rows).1, r'.id = i →
      ∃ u, r'.lastTriggered = some u ∧ D ≤ u := by
  have hmem : i ∈ (processRecurringReminders sendOk now rows).2 :=
    List.count_pos_iff.mp (Nat.lt_of_lt_of_le Nat.zero_lt_one h1)
  unfold processRecurringReminders at hmem ⊢
  rw [fireDue_fired] at hmem
  obtain ⟨x, hx, hxi⟩ := List.mem_map.mp hmem
  have hxdue := (List.mem_filter.mp hx).1
  have hxsend := (List.mem_filter.mp hx).2
  intro r' hr' hid
  rw [fireDue_rows] at hr'
  obtain ⟨a, _, hga⟩ := List.mem_map.mp hr'
  have haid : a.id = r'.id := by
    by_cases hc : (GetDueRecurringReminders rows now).any
        (fun d => sendOk d.id && d.id == a.id) = true
    · rw [if_pos hc] at hga
      rw [← hga]
    · rw [if_neg hc] at hga
      rw [← hga]
  have hany : (GetDueRecurringReminders rows now).any
      (fun d => sendOk d.id && d.id == a.id) = true := by
    rw [List.any_eq_true]
    have hxa : x.id = a.id := by rw [hxi, haid, hid]
    refine ⟨x, hxdue, ?_⟩
    rw [Bool.and_eq_true, beq_iff_eq]
    exact ⟨hxa ▸ hxsend, hxa⟩
  rw [if_pos hany] at hga
  refine ⟨now.absMinutes, by rw [← hga], ?_⟩
  rw [← hD]
  exact startOfToday_le_absMinutes now

theorem runTicks_count_le (i D : Int) :
    ∀ (ticks : List (LocalInstant × (Int → Bool)))
      (rows : List RecurringReminder),
      (∀ p ∈ ticks, (p.1).startOfToday = D) →
      rows.countP (fun r => r.id == i) ≤ 1 →
      (runTicks ticks rows).2.count i ≤ 1
  | [], rows, _, _ => by simp [runTicks]
  | (now, ok) :: rest, rows, hticks, hcount => by
      have hD : now.startOfToday = D := hticks (now, ok) (List.mem_cons_self _ _)
      have hrest : ∀ p ∈ rest, (p.1).startOfToday = D :=
        fun p hp => hticks p (List.mem_cons_of_mem _ hp)
      have hcount' : (processRecurringReminders ok now rows).1.countP
          (fun r => r.id == i) = rows.countP (fun r => r.id == i) := by
        unfold processRecurringReminders
        exact fireDue_countId ok now.absMinutes _ rows i
      simp only [runTicks, List.count_append]
      by_cases h0 : (processRecurringReminders ok now rows).2.count i = 0
      · rw [h0, Nat.zero_add]
        exact runTicks_count_le i D rest _ hrest (hcount' ▸ hcount)
      · have h1 : 1 ≤ (processRecurringReminders ok now rows).2.count i :=
          Nat.one_le_iff_ne_zero.mpr h0
        have hle := tick_count_le ok now rows i hcount
        have hdead := dead_run_count i D rest _ hrest
          (tick_fired_W ok now rows i D hD h1)
        omega

/-- C3 (confirmed): (1) a definition whose `lastTriggered` is at or after
`startOfToday(now)` is never returned by `GetDueRecurringReminders`;
(2) hence over any sequence of recurring-checker ticks falling on one
calendar day (all sharing the same start-of-today), a definition id fires —
is sent successfully and watermarked — at most once, whatever the tick
times and send outcomes; (3) and with a watermark strictly before
start-of-today (e.g. yesterday's fire) a definition meeting the other
conditions is returned again. -/
theorem C3_watermark_once_per_day :
    (∀ (rows : List RecurringReminder) (now : LocalInstant)
       (r : RecurringReminder) (t : Int), r ∈ rows →
       r.lastTriggered = some t → now.startOfToday ≤ t →
       r ∉ GetDueRecurringReminders rows now) ∧
    (∀ (ticks : List (LocalInstant × (Int → Bool)))
       (rows : List RecurringReminder) (i D : Int),
       (∀ p ∈ ticks, (p.1).startOfToday = D) →
       rows.countP (fun r => r.id == i) ≤ 1 →
       (runTicks ticks rows).2.count i ≤ 1) ∧
    (∀ (rows : List RecurringReminder) (now : LocalInstant)
       (r : RecurringReminder) (t : Int), r ∈ rows → r.active = true →
       r.isTodo = false → r.time = formatHHMM now.hour now.minute →
       patternMatchesNow now r = true → r.lastTriggered = some t →
       t < now.startOfToday → r ∈ GetDueRecurringReminders rows now) := by
  refine ⟨?_, fun ticks rows i D => runTicks_count_le i D ticks rows, ?_⟩
  · intro rows now r t hr hlast hle hmem
    have hd := (mem_GetDueRecurringReminders.mp hmem).2
    unfold dueRecurring at hd
    simp only [Bool.and_eq_true] at hd
    have hw := hd.2
    rw [hlast] at hw
    simp only [decide_eq_true_eq] at hw
    omega
  · intro rows now r t hr hact htodo htime hpat hlast hlt
    refine mem_GetDueRecurringReminders.mpr ⟨hr, ?_⟩
    unfold dueRecurring
    rw [hact, htodo, hpat, hlast]
    simp [htime, hlt]

/-- C3 witness: two ticks at 09:00 and 09:01 of the same server-local day,
all sends succeeding, fire the daily 09:00 definition at most once. -/
theorem C3_watermark_once_per_day_witness :
    (runTicks [(serverNineAM, fun _ => true), (serverNineOhOne, fun _ => true)]
      [sampleDaily]).2.count 1 ≤ 1 :=
  C3_watermark_once_per_day.2.1
    [(serverNineAM, fun _ => true), (serverNineOhOne, fun _ => true)]
    [sampleDaily] 1 (-180) (by decide) (by decide)

/-! ## C7: ordering of the multi-day list view -/

theorem chListLe_total : ∀ a b : List Char,
    chListLe a b = true ∨ chListLe b a = true
  | [], _ => Or.inl rfl
  | _ :: _, [] => Or.inr rfl
  | a :: as, b :: bs => by
      rcases lt_trichotomy a b with h | h | h
      · left
        simp [chListLe, h]
      · subst h
        rcases chListLe_total as bs with ih | ih
        · left
          simp [chListLe, ih]
        · right
          simp [chListLe, ih]
      · right
        simp [chListLe, h]

theorem chListLe_trans : ∀ a b c : List Char, chListLe a b = true →
    chListLe b c = true → chListLe a c = true
  | [], _, _, _, _ => rfl
  | a :: as, [], c, h1, _ => by simp [chListLe] at h1
  | a :: as, b :: bs, [], _, h2 => by simp [chListLe] at h2
  | a :: as, b :: bs, c :: cs, h1, h2 => by
      unfold chListLe at h1 h2 ⊢
      by_cases hab : a < b
      · by_cases hbc : b < c
        · simp [lt_trans hab hbc]
        · by_cases hbc' : b = c
          · subst hbc'
            simp [hab]
          · simp [hbc, hbc'] at h2
      · by_cases hab' : a = b
        · subst hab'
          simp only [lt_irrefl, if_neg, if_pos, reduceIte] at h1
          by_cases hbc : a < c
          · simp [hbc]
          · by_cases hbc' : a = c
            · subst hbc'
              simp only [lt_irrefl, reduceIte] at h2 ⊢
              exact chListLe_trans as bs cs h1 h2
            · simp [hbc, hbc'] at h2
        · simp [hab, hab'] at h1

instance : IsTotal String strLeP :=
  ⟨fun a b => by
    unfold strLeP strLe
    rcases chListLe_total a.data b.data with h | h
    · exact Or.inl h
    · exact Or.inr h⟩

instance : IsTrans String strLeP :=
  ⟨fun a b c h1 h2 => chListLe_trans a.data b.data c.data h1 h2⟩

instance : IsTotal String restLe :=
  ⟨fun a b => by
    unfold restLe strLe
    rcases chListLe_total (lineRest a).data (lineRest b).data with h | h
    · exact Or.inl h
    · exact Or.inr h⟩

instance : IsTrans String restLe :=
  ⟨fun _ _ _ h1 h2 => chListLe_trans _ _ _ h1 h2⟩

theorem flatMap_perm_congr {α β : Type} (f g : α → List β) :
    ∀ ds : List α, (∀ d ∈ ds, (f d).Perm (g d)) →
      (ds.flatMap f).Perm (ds.flatMap g)
  | [], _ => List.Perm.refl _
  | d :: rest, h => by
      simp only [List.flatMap_cons]
      exact (h d (List.mem_cons_self _ _)).append
        (flatMap_perm_congr f g rest
          (fun x hx => h x (List.mem_cons_of_mem _ hx)))

theorem partition_by_date_perm :
    ∀ (ds : List String) (lines : List String), ds.Nodup →
      (∀ l ∈ lines, lineDate l ∈ ds) →
      (ds.flatMap (fun d => lines.filter (fun l => lineDate l == d))).Perm
        lines
  | [], lines, _, hcov => by
      have : lines = [] := by
        cases lines with
        | nil => rfl
        | cons l ls => exact absurd (hcov l (List.mem_cons_self _ _)) (by simp)
      subst this
      rfl
  | d :: rest, lines, hnd, hcov => by
      simp only [List.flatMap_cons]
      have hrest :
          ∀ d' ∈ rest,
            lines.filter (fun l => lineDate l == d') =
              (lines.filter (fun l => !(lineDate l == d))).filter
                (fun l => lineDate l == d') := by
        intro d' hd'
        rw [List.filter_filter]
        refine (List.filter_congr ?_).symm
        intro l _
        by_cases hld : lineDate l = d'
        · have hdd : d ≠ d' := by
            intro hE
            subst hE
            exact (List.nodup_cons.mp hnd).1 hd'
          simp [hld, Ne.symm hdd]
        · simp [hld]
      have hmapeq :
          rest.flatMap (fun d' => lines.filter (fun l => lineDate l == d')) =
            rest.flatMap (fun d' =>
              (lines.filter (fun l => !(lineDate l == d))).filter
                (fun l => lineDate l == d')) :=
        List.flatMap_congr hrest
      rw [hmapeq]
      have ih := partition_by_date_perm rest
        (lines.filter (fun l => !(lineDate l == d)))
        (List.nodup_cons.mp hnd).2
        (by
          intro l hl
          have hml := List.mem_filter.mp hl
          have hcd := hcov l hml.1
          rcases List.mem_cons.mp hcd with hE | hE
          · exfalso
            have := hml.2
            rw [hE] at this
            simp at this
          · exact hE)
      exact (List.Perm.append_left _ ih).trans
        (List.filter_append_perm _ lines)

theorem mem_dayGroup {lines : List String} {d x : String}
    (hx : x ∈ (lines.filter (fun l => lineDate l == d)).filter
            (fun l => isTodoLine l) ++
          List.insertionSort restLe
            ((lines.filter (fun l => lineDate l == d)).filter
              (fun l => !isTodoLine l))) :
    lineDate x = d := by
  rcases List.mem_append.mp hx with h | h
  · have := (List.mem_filter.mp (List.mem_filter.mp h).1).2
    simpa using this
  · rw [List.mem_insertionSort] at h
    have := (List.mem_filter.mp (List.mem_filter.mp h).1).2
    simpa using this

/-- C7 counterexample: the claim says the merged multi-day output lists the
days in ascending calendar-date order. Sorting the lines for 30.01.2026 and
02.02.2026 places the 02.02.2026 line first, because day groups are ordered
by `sort.Strings` over "DD.MM.YYYY" display strings (day first), although
30 January 2026 is the earlier calendar day. -/
theorem C7_counterexample :
    sortLinesByDateTimeWithTodos
        ["30.01.2026 09:00 – b", "02.02.2026 10:00 – a"] =
      ["02.02.2026 10:00 – a", "30.01.2026 09:00 – b"] ∧
    calendarKey (lineDate "30.01.2026 09:00 – b") = (2026, 1, 30) ∧
    calendarKey (lineDate "02.02.2026 10:00 – a") = (2026, 2, 2) ∧
    calendarLt (2026, 1, 30) (2026, 2, 2) := by
  refine ⟨by decide, by decide, by decide, by decide⟩

/-- C7 amended: the merged multi-day output is a permutation of the input
lines in which the day groups appear in ascending lexicographic order of
their "DD.MM.YYYY" date strings (which coincides with calendar order only
inside a single month, not across month or year boundaries), with todo lines
placed before timed lines within each day and the timed lines of a day
sorted nondecreasing by their text after the date — i.e. by time-of-day
first. -/
theorem C7_amended_ordering (lines : List String) :
    (sortLinesByDateTimeWithTodos lines).Perm lines ∧
    (sortLinesByDateTimeWithTodos lines).Pairwise lineOrd := by
  have hEq : sortLinesByDateTimeWithTodos lines =
      (List.insertionSort strLeP (lines.map lineDate).dedup).flatMap
        (fun d =>
          (lines.filter (fun l => lineDate l == d)).filter
            (fun l => isTodoLine l) ++
          List.insertionSort restLe
            ((lines.filter (fun l => lineDate l == d)).filter
              (fun l => !isTodoLine l))) := rfl
  have hnd : (List.insertionSort strLeP (lines.map lineDate).dedup).Nodup :=
    ((List.perm_insertionSort strLeP _).nodup_iff).mpr (List.nodup_dedup _)
  have hcov : ∀ l ∈ lines, lineDate l ∈
      List.insertionSort strLeP (lines.map lineDate).dedup := by
    intro l hl
    exact (List.mem_insertionSort _).mpr
      (List.mem_dedup.mpr (List.mem_map_of_mem _ hl))
  constructor
  · rw [hEq]
    refine (flatMap_perm_congr _
      (fun d => lines.filter (fun l => lineDate l == d)) _ ?_).trans
      (partition_by_date_perm _ lines hnd hcov)
    intro d _
    refine (List.Perm.append_left _ (List.perm_insertionSort restLe _)).trans
      (List.filter_append_perm _ _)
  · rw [hEq, List.pairwise_flatMap]
    constructor
    · intro d _
      refine List.pairwise_append.mpr ⟨?_, ?_, ?_⟩
      · refine List.pairwise_of_forall_mem_list ?_
        intro x hx y hy
        right
        refine ⟨?_, Or.inl (List.mem_filter.mp hx).2⟩
        rw [mem_dayGroup (List.mem_append_left _ hx),
          mem_dayGroup (List.mem_append_left _ hy)]
      · have hsorted : (List.insertionSort restLe
            ((lines.filter (fun l => lineDate l == d)).filter
              (fun l => !isTodoLine l))).Pairwise restLe :=
          List.sorted_insertionSort restLe _
        refine List.Pairwise.imp_of_mem ?_ hsorted
        intro x y hx hy hxy
        right
        have hxt : isTodoLine x = false := by
          have := (List.mem_filter.mp
            ((List.mem_insertionSort _).mp hx)).2
          simpa using this
        have hyt : isTodoLine y = false := by
          have := (List.mem_filter.mp
            ((List.mem_insertionSort _).mp hy)).2
          simpa using this
        refine ⟨?_, Or.inr ⟨hxt, hyt, hxy⟩⟩
        rw [mem_dayGroup (List.mem_append_right _ hx),
          mem_dayGroup (List.mem_append_right _ hy)]
      · intro x hx y hy
        right
        refine ⟨?_, Or.inl (List.mem_filter.mp hx).2⟩
        rw [mem_dayGroup (List.mem_append_left _ hx),
          mem_dayGroup (List.mem_append_right _ hy)]
    · have hsorted : (List.insertionSort strLeP
          (lines.map lineDate).dedup).Pairwise strLeP :=
        List.sorted_insertionSort strLeP _
      refine (hsorted.and hnd).imp ?_
      intro d1 d2 hd x hx y hy
      left
      rw [mem_dayGroup hx, mem_dayGroup hy]
      exact ⟨hd.1, hd.2⟩

/-- C7 witness: on a two-line January sample the sorted output is a
permutation of the input. -/
theorem C7_amended_ordering_witness :
    (sortLinesByDateTimeWithTodos
        ["30.01.2026 09:00 – b", "29.01.2026 10:00 – a"]).Perm
      ["30.01.2026 09:00 – b", "29.01.2026 10:00 – a"] :=
  (C7_amended_ordering ["30.01.2026 09:00 – b", "29.01.2026 10:00 – a"]).1

/-! ## C8: the "nothing to change" guard applies only to one-shot ids -/

/-- C8 counterexample: the claim says an adjust with no fields at all is
rejected as "nothing to change" for recurring ids too. Adjusting `rec_42`
with every field empty is NOT rejected: the recurring path looks the
definition up, merges the (absent) fields over the stored values and runs
`UpdateRecurringReminder`, reporting success — the reply is "changed", not
"nothing to change" (the store happens to be rewritten with identical
values). -/
theorem C8_counterexample :
    (processAdjustOperation emptyAdjustRecOp 7 sampleStore).1 =
      AdjustOutcome.recurringUpdated ∧
    (processAdjustOperation emptyAdjustRecOp 7 sampleStore).1 ≠
      AdjustOutcome.nothingToChange := by
  refine ⟨by decide, by decide⟩

/-- C8 amended: an adjust providing none of datetime / label / time /
recurringType / dayOfWeek / dayOfMonth is rejected as "nothing to change"
with no store mutation only on the one-shot path (a plain integer id). On
the `rec_`-prefixed path no such guard exists: against a well-formed store
(distinct ids, NULL sentinels as the write paths produce them) the
operation leaves the store observably unchanged — the row is rewritten with
its own values — but reports the definition as changed (or not-found /
bad-id), never "nothing to change". -/
theorem recAdjust_empty_noop (op : Operation) (userID : Int) (st : BotStore)
    (hlb : op.label = "") (htm : op.time = "") (hrt : op.recurringType = "")
    (hdw : op.dayOfWeek = "") (hdm : op.dayOfMonth = "") (rid : Int)
    (hnodup : (st.recurring.map RecurringReminder.id).Nodup)
    (hnorm : ∀ r ∈ st.recurring, NormalizedRecRow r) :
    (processAdjustRecurringOperation rid op userID st).2 = st ∧
    ((processAdjustRecurringOperation rid op userID st).1 = .recurringUpdated ∨
     (processAdjustRecurringOperation rid op userID st).1 = .recurringNotFound) := by
  unfold processAdjustRecurringOperation
  cases hfind : (GetUserRecurringReminders userID st.recurring).find?
      (fun r => r.id == rid) with
  | none => exact ⟨rfl, Or.inr rfl⟩
  | some found =>
      have hfid : found.id = rid := by
        have := List.find?_some hfind
        simpa using this
      have hfmem : found ∈ GetUserRecurringReminders userID st.recurring :=
        List.mem_of_find?_eq_some hfind
      have hfmem' := hfmem
      rw [GetUserRecurringReminders, List.mem_insertionSort] at hfmem'
      have hf2 := List.mem_filter.mp hfmem'
      have hfrows : found ∈ st.recurring := hf2.1
      have hfu : found.userId = userID := by
        have := hf2.2
        simp only [Bool.and_eq_true, beq_iff_eq] at this
        exact this.1
      have hfa : found.active = true := by
        have := hf2.2
        simp only [Bool.and_eq_true] at this
        exact this.2
      have hupd : UpdateRecurringReminder st.recurring rid userID
          found.label found.recurringType found.time found.dayOfWeek
          found.dayOfMonth = (true, st.recurring) := by
        unfold UpdateRecurringReminder
        rw [Prod.mk.injEq]
        constructor
        · rw [List.any_eq_true]
          exact ⟨found, hfrows, by simp [hfid, hfu, hfa]⟩
        · refine (List.map_congr_left ?_).trans (List.map_id _)
          intro r hr
          by_cases hhit : (r.id == rid && r.userId == userID &&
              r.active) = true
          · have hrid' : r.id = rid := by
              simp only [Bool.and_eq_true, beq_iff_eq] at hhit
              exact hhit.1.1
            have hrf : r = found :=
              List.inj_on_of_nodup_map hnodup hr hfrows
                (by rw [hrid', hfid])
            subst hrf
            rw [if_pos hhit]
            have hdw' : (if r.dayOfWeek ≥ 0 then r.dayOfWeek else -1) =
                r.dayOfWeek := by
              rcases (hnorm r hr).1 with hw | hw
              · exact if_pos hw
              · rw [hw]
                decide
            have hdm' : (if r.dayOfMonth > 0 then r.dayOfMonth else -1) =
                r.dayOfMonth := by
              rcases (hnorm r hr).2 with hm | hm
              · exact if_pos hm
              · rw [hm]
                decide
            rw [hdw', hdm']
            rfl
          · rw [if_neg hhit]
            rfl
      simp only [hlb, htm, hrt, hdw, hdm, ne_eq, not_true_eq_false,
        false_and, reduceIte]
      rw [hupd]
      exact ⟨rfl, Or.inl rfl⟩

/-- C8 amended: an adjust providing none of datetime / label / time /
recurringType / dayOfWeek / dayOfMonth is rejected as "nothing to change"
with no store mutation only on the one-shot path (a plain integer id). On
the `rec_`-prefixed path no such guard exists: against a well-formed store
(distinct ids, NULL sentinels as the write paths produce them) the
operation leaves the store observably unchanged — the row is rewritten with
its own values — but reports the definition as changed (or not-found /
bad-id), never "nothing to change". -/
theorem C8_nothing_to_change_guard (op : Operation) (userID : Int)
    (st : BotStore) (hdt : op.datetime = "") (hlb : op.label = "")
    (htm : op.time = "") (hrt : op.recurringType = "")
    (hdw : op.dayOfWeek = "") (hdm : op.dayOfMonth = "") :
    (hasRecMark op.reminderId = false →
      ∀ rid, parseInt op.reminderId = some rid →
        processAdjustOperation op userID st = (.nothingToChange, st)) ∧
    (hasRecMark op.reminderId = true →
      (st.recurring.map RecurringReminder.id).Nodup →
      (∀ r ∈ st.recurring, NormalizedRecRow r) →
      (processAdjustOperation op userID st).2 = st ∧
      ((processAdjustOperation op userID st).1 = .recurringUpdated ∨
       (processAdjustOperation op userID st).1 = .recurringNotFound ∨
       (processAdjustOperation op userID st).1 = .badRecurringId)) := by
  constructor
  · intro hrm rid hrid
    unfold processAdjustOperation
    rw [hrm]
    simp only [Bool.false_eq_true, if_neg, reduceIte]
    rw [hrid]
    simp [hdt, hlb]
  · intro hrm hnodup hnorm
    unfold processAdjustOperation
    rw [hrm]
    simp only [reduceIte]
    cases hp : parseInt (dropRecMark op.reminderId) with
    | none => exact ⟨rfl, Or.inr (Or.inr rfl)⟩
    | some rid =>
        have hkey := recAdjust_empty_noop op userID st hlb htm hrt hdw hdm
          rid hnodup hnorm
        refine ⟨hkey.1, ?_⟩
        rcases hkey.2 with h | h
        · exact Or.inl h
        · exact Or.inr (Or.inl h)

/-- C8 witness: the field-less adjust against one-shot id 5 is rejected as
"nothing to change" and the store is untouched. -/
theorem C8_nothing_to_change_guard_witness :
    processAdjustOperation emptyAdjustOp 7 sampleStore =
      (.nothingToChange, sampleStore) :=
  (C8_nothing_to_change_guard emptyAdjustOp 7 sampleStore rfl rfl rfl rfl
    rfl rfl).1 (by decide) 5 (by decide)

end Reminders21
